import Mathlib

/-!
Verification development for the Spark-DataFrames instructional notebook
(`index.ipynb`).  The notebook orchestrates an external query engine
(PySpark): it builds a three-row literal DataFrame, loads a forest-fire
CSV dataset, and runs selection, filtering, group-by aggregation,
ordering and correlation calls on them.  We shallow-embed the datasets
and the semantics of the library operations the notebook invokes and
prove the spec's claims about the resulting behavior.  Numeric columns
are modelled with `ℚ`.
-/

namespace SparkNB

/-- Spark SQL data types appearing in the notebook's schemas. -/
inductive SparkType where
  | stringT
  | longT
  | booleanT
  | doubleT
  | integerT
deriving DecidableEq, Repr

/-- Python literal values used in the `createDataFrame` call. -/
inductive PyVal where
  | pstr (s : String)
  | pint (n : Int)
  | pbool (b : Bool)
deriving DecidableEq, Repr

/-- Modelled from the spec: Spark schema inference on untyped Python
literals maps `str` to `string`, `int` to `bigint` (long) and `bool`
to `boolean`; the notebook relies on this when it calls
`createDataFrame` without explicit types. -/
def inferType : PyVal → SparkType
  | .pstr _ => .stringT
  | .pint _ => .longT
  | .pbool _ => .booleanT

/-- The literal rows passed to `spark.createDataFrame` in the notebook,
as association lists from column name to Python value, in source order. -/
def sparkLiteralRows : List (List (String × PyVal)) :=
  [ [("color", .pstr "red"), ("number", .pint 4), ("count", .pint 1), ("valid", .pbool true)]
  , [("color", .pstr "blue"), ("number", .pint 7), ("count", .pint 2), ("valid", .pbool false)]
  , [("color", .pstr "green"), ("number", .pint 1), ("count", .pint 3), ("valid", .pbool true)] ]

/-- Modelled from the spec: when fed a list of Python dicts,
`createDataFrame` takes the column names in sorted order and infers
each column's type from that column's value in the first row. -/
def inferSchema (rows : List (List (String × PyVal))) : List (String × SparkType) :=
  match rows with
  | [] => []
  | r :: _ =>
    (List.insertionSort (fun a b => a ≤ b) (r.map Prod.fst)).map
      (fun c =>
        (c, match (r.find? (fun p => p.1 = c)).map Prod.snd with
            | some v => inferType v
            | none => .stringT))

/-- A row of the three-row literal DataFrame `spark_df`, with the
column order Spark chose (alphabetical: color, count, number, valid). -/
structure SRow where
  color : String
  count : Int
  number : Int
  valid : Bool
deriving DecidableEq, Repr

/-- The materialized contents of `spark_df`, as shown by
`spark_df.collect()` in the notebook. -/
def spark_df : List SRow :=
  [⟨"red", 1, 4, true⟩, ⟨"blue", 2, 7, false⟩, ⟨"green", 3, 1, true⟩]

/-- A row of the forest-fire dataset `fire_df`, with the thirteen
columns shown by `fire_df.show(5)` in the notebook: X, Y, month, day,
FFMC, DMC, DC, ISI, temp, RH, wind, rain, area. -/
structure FireRow where
  X : Int
  Y : Int
  month : String
  day : String
  FFMC : ℚ
  DMC : ℚ
  DC : ℚ
  ISI : ℚ
  temp : ℚ
  RH : Int
  wind : ℚ
  rain : ℚ
  area : ℚ
deriving DecidableEq, Repr

/-- The column names of `fire_df`, as recorded in the header row of the
`fire_df.show(5)` output in the notebook. -/
def fireColumns : List String :=
  ["X", "Y", "month", "day", "FFMC", "DMC", "DC", "ISI", "temp", "RH", "wind", "rain", "area"]

/-- The spec's "spatial coordinates" group of fire columns. -/
def spatialColumns : List String := ["X", "Y"]

/-- The spec's "four fire-weather indices" group of fire columns. -/
def fireWeatherIndices : List String := ["FFMC", "DMC", "DC", "ISI"]

/-- The first five rows of `fire_df`, exactly as printed by
`fire_df.show(5)` in the notebook. -/
def fireHead : List FireRow :=
  [ ⟨7, 5, "mar", "fri", 86.2, 26.2, 94.3, 5.1, 8.2, 51, 6.7, 0, 0⟩
  , ⟨7, 4, "oct", "tue", 90.6, 35.4, 669.1, 6.7, 18.0, 33, 0.9, 0, 0⟩
  , ⟨7, 4, "oct", "sat", 90.6, 43.7, 686.9, 6.7, 14.6, 33, 1.3, 0, 0⟩
  , ⟨8, 6, "mar", "fri", 91.7, 33.3, 77.5, 9.0, 8.3, 97, 4.0, 0.2, 0⟩
  , ⟨8, 6, "mar", "sun", 89.3, 51.3, 102.2, 9.6, 11.4, 99, 1.8, 0, 0⟩ ]

/-! ### Group-by aggregation

Modelled from the spec: `groupBy(key).agg(mean of area)` is
executed by the engine as a hash aggregation: rows are folded one at a
time into an accumulator keeping, for each distinct key seen so far, the
running sum and running count of the aggregated column; at the end each
accumulator cell is finalized to `sum / count`. -/

/-- One step of hash aggregation: merge one row's key and value into the
accumulator, extending it when the key is new. -/
def aggStep : List (String × ℚ × Nat) → String → ℚ → List (String × ℚ × Nat)
  | [], k, x => [(k, x, 1)]
  | e :: rest, k, x =>
    if e.1 = k then (e.1, e.2.1 + x, e.2.2 + 1) :: rest
    else e :: aggStep rest k x

/-- Hash-aggregate a list of rows: fold every row into the accumulator. -/
def hashAgg (key : α → String) (v : α → ℚ) (rows : List α) : List (String × ℚ × Nat) :=
  rows.foldl (fun acc r => aggStep acc (key r) (v r)) []

/-- `groupBy(key).agg(mean v)`: hash-aggregate, then finalize each group
to its arithmetic mean. -/
def groupByMean (key : α → String) (v : α → ℚ) (rows : List α) : List (String × ℚ) :=
  (hashAgg key v rows).map (fun e => (e.1, e.2.1 / (e.2.2 : ℚ)))

/-- The sum of the aggregated column over the rows of key `k`. -/
def groupSum (key : α → String) (v : α → ℚ) (rows : List α) (k : String) : ℚ :=
  ((rows.filter (fun r => decide (key r = k))).map v).sum

/-- The number of rows of key `k`. -/
def groupCount (key : α → String) (rows : List α) (k : String) : Nat :=
  (rows.filter (fun r => decide (key r = k))).length

/-- Lookup of a key in the aggregation accumulator. -/
def accFind (acc : List (String × ℚ × Nat)) (k : String) : Option (ℚ × Nat) :=
  match acc with
  | [] => none
  | e :: rest => if e.1 = k then some e.2 else accFind rest k

/-- The invariant maintained by hash aggregation: the accumulator has no
duplicate keys and associates each key of the processed rows, and only
those, with the running sum and count of its group. -/
def AccInv (key : α → String) (v : α → ℚ) (processed : List α)
    (acc : List (String × ℚ × Nat)) : Prop :=
  (acc.map Prod.fst).Nodup ∧
  ∀ k, accFind acc k =
    if k ∈ processed.map key then some (groupSum key v processed k, groupCount key processed k)
    else none

/-- The months aggregation of the notebook, `fire_df.groupBy('month')` followed by `agg` with the mean of `area`, materialized. -/
def groupMonthsAvgArea (rows : List FireRow) : List (String × ℚ) :=
  groupByMean (fun r => r.month) (fun r => r.area) rows

/-- The day aggregation of the notebook, `fire_df.groupBy('day')` followed by `agg` with the mean of `area`, materialized. -/
def groupDayAvgArea (rows : List FireRow) : List (String × ℚ) :=
  groupByMean (fun r => r.day) (fun r => r.area) rows

/-! ### Lazy evaluation of the aggregation call -/

/-- Modelled from the spec: the value returned by a group-by aggregation
call is not the grouped rows but an unevaluated logical plan: the
grouping key together with the untouched input rows.  Materialization
happens only when `collect` (or `show`) is invoked on the plan. -/
inductive AggPlan where
  | groupAvgArea (key : String) (rows : List FireRow)
deriving DecidableEq, Repr

/-- The `fire_df.groupBy(key).agg` call itself: it only builds the plan
node and performs no aggregation. -/
def groupByAggMean (rows : List FireRow) (key : String) : AggPlan :=
  .groupAvgArea key rows

/-- The string column of `fire_df` selected by a grouping key name. -/
def stringCol (key : String) (r : FireRow) : String :=
  if key = "day" then r.day else r.month

/-- The result schema carried by an unevaluated aggregation plan. -/
def aggSchema : AggPlan → List (String × SparkType)
  | .groupAvgArea key _ => [(key, .stringT), ("avg(area)", .doubleT)]

/-- Printable name of a Spark SQL type, as it appears in the notebook's
`DataFrame[...]` displays. -/
def typeName : SparkType → String
  | .stringT => "string"
  | .longT => "bigint"
  | .booleanT => "boolean"
  | .doubleT => "double"
  | .integerT => "int"

/-- What the notebook displays for an unevaluated aggregation value:
only its schema, never its rows. -/
def reprAgg (p : AggPlan) : String :=
  "DataFrame[" ++ String.intercalate ", " ((aggSchema p).map (fun c => c.1 ++ ": " ++ typeName c.2)) ++ "]"

/-- `collect()` on an aggregation plan: this is the point where the
per-group summary rows are actually computed. -/
def collectAgg : AggPlan → List (String × ℚ)
  | .groupAvgArea key rows => groupByMean (stringCol key) (fun r => r.area) rows

/-! ### Ordering the aggregated result -/

/-- `orderBy('avg(area)')` on a materialized aggregate: sort the
(key, average) pairs by the average, non-decreasingly. -/
def orderByAvgArea (l : List (String × ℚ)) : List (String × ℚ) :=
  List.insertionSort (fun a b => a.2 ≤ b.2) l

/-! ### take versus collect -/

/-- `collect()` on the literal DataFrame: materialize all rows, in order. -/
def collectRows (rows : List SRow) : List SRow := rows

/-- Modelled from the spec: `take(n)` fetches rows one at a time from the
front of the materialized data until `n` rows are returned or the data
runs out. -/
def takeRows : Nat → List SRow → List SRow
  | 0, _ => []
  | _ + 1, [] => []
  | n + 1, r :: rs => r :: takeRows n rs

/-! ### Pearson correlation -/

/-- Modelled from the spec: `DataFrame.corr(c1, c2)` computes the Pearson
correlation coefficient of the two columns: the sum of products of
deviations from the means, divided by the square root of the product of
the two sums of squared deviations (exact arithmetic over `ℚ`; the
square root is exact on this notebook's data). -/
def pearsonCorr (xs ys : List ℚ) : ℚ :=
  let n : ℚ := xs.length
  let mx := xs.sum / n
  let my := ys.sum / n
  let cov := ((xs.zip ys).map (fun p => (p.1 - mx) * (p.2 - my))).sum
  let vx := (xs.map (fun x => (x - mx) ^ 2)).sum
  let vy := (ys.map (fun y => (y - my) ^ 2)).sum
  cov / Rat.sqrt (vx * vy)

/-- The notebook's `spark_df.corr('number', 'count')` call. -/
def sparkDfCorrNumberCount : ℚ :=
  pearsonCorr (spark_df.map (fun r => (r.number : ℚ))) (spark_df.map (fun r => (r.count : ℚ)))

/-! ### The Column error demonstration -/

/-- A Python exception, as printed by the notebook's `except` blocks:
its type name and its message. -/
structure PyError where
  ename : String
  msg : String
deriving DecidableEq, Repr

/-- Modelled from the spec: the intermediate value `spark_df[...]` is a
Column expression, a description of a computation on a column rather
than displayable data. -/
inductive ColExpr where
  | col (name : String)
  | containsOf (e : ColExpr) (sub : String)
  | attr (e : ColExpr) (name : String)
deriving DecidableEq, Repr

/-- Modelled from the spec: attribute access on a pyspark Column always
succeeds and yields another Column (a field-access expression); this is
why `spark_df['color'].show` is a Column, not a method. -/
def columnAttr (e : ColExpr) (name : String) : ColExpr :=
  .attr e name

/-- Modelled from the spec: a pyspark Column is not callable; calling
one raises `TypeError: 'Column' object is not callable`, matching the
notebook's recorded output. -/
def callColumn (_e : ColExpr) : Except PyError Unit :=
  .error ⟨"TypeError", "\x27Column\x27 object is not callable"⟩

/-- The attempted `....show()` on a Column: look up the `show` attribute
(a Column again) and call it. -/
def showColumn (e : ColExpr) : Except PyError Unit :=
  callColumn (columnAttr e "show")

/-- One of the notebook's demonstration blocks: `try` the `show()` call
and, on an exception, print the exception's type and message. -/
def demoBlock (e : ColExpr) : List String :=
  match showColumn e with
  | .ok _ => []
  | .error err => [err.ename, err.msg]

/-- Whether the second character list occurs at the head of the first. -/
def charsHavePrefix : List Char → List Char → Bool
  | _, [] => true
  | [], _ :: _ => false
  | c :: cs, d :: ds => c = d && charsHavePrefix cs ds

/-- Whether the second character list occurs anywhere inside the first. -/
def charsContain : List Char → List Char → Bool
  | [], sub => sub.isEmpty
  | c :: cs, sub => charsHavePrefix (c :: cs) sub || charsContain cs sub

/-- Substring containment on strings, as pyspark's `Column.contains`. -/
def strContains (s sub : String) : Bool :=
  charsContain s.toList sub.toList

/-- The string value of a Column expression on a concrete row. -/
def evalColStr : ColExpr → SRow → String
  | .col n, r => if n = "color" then r.color else ""
  | _, _ => ""

/-- Truthiness of a Column expression on a concrete row, used by
`filter`: `contains` checks substring containment. -/
def evalColBool : ColExpr → SRow → Bool
  | .col n, r => if n = "valid" then r.valid else true
  | .containsOf e sub, r => strContains (evalColStr e r) sub
  | .attr _ _, _ => true

/-- `spark_df.filter(mask)`: keep the rows on which the Column
expression is true. -/
def maskFilter (rows : List SRow) (e : ColExpr) : List SRow :=
  rows.filter (evalColBool e)

/-- The whole error-demonstration section of the notebook, in order: the
two try/except blocks, then the `filter`-based boolean masking that runs
after them (showing execution continued past both blocks). -/
def errorDemoSection : List String × List SRow :=
  (demoBlock (.col "color") ++ demoBlock (.containsOf (.col "color") "r"),
   maskFilter spark_df (.containsOf (.col "color") "r"))

/-! ### Boolean masking as straight-line assignments -/

/-- The filtering expressions the notebook applies to `fire_df`. -/
inductive FExpr where
  | varE (x : String)
  | filterRainEq0 (e : FExpr)
  | filterRainPos (e : FExpr)
  | filterMonthIn (e : FExpr) (ms : List String)
deriving DecidableEq, Repr

/-- The notebook's variable store: later bindings shadow earlier ones. -/
def Env := List (String × List FireRow)

/-- Read a variable from the store. -/
def lookupEnv (env : Env) (x : String) : List FireRow :=
  match env.find? (fun p => decide (p.1 = x)) with
  | some p => p.2
  | none => []

/-- Evaluate a filtering expression against the store. -/
def evalF (env : Env) : FExpr → List FireRow
  | .varE x => lookupEnv env x
  | .filterRainEq0 e => (evalF env e).filter (fun r => decide (r.rain = 0))
  | .filterRainPos e => (evalF env e).filter (fun r => decide (0 < r.rain))
  | .filterMonthIn e ms => (evalF env e).filter (fun r => ms.contains r.month)

/-- A notebook assignment `lhs = rhs`. -/
structure Assign where
  lhs : String
  rhs : FExpr
deriving DecidableEq, Repr

/-- Execute one assignment: bind the evaluated expression; nothing else
in the store is touched. -/
def execStmt (env : Env) (s : Assign) : Env :=
  (s.lhs, evalF env s.rhs) :: env

/-- Execute a straight-line sequence of assignments. -/
def runProg (env : Env) (prog : List Assign) : Env :=
  prog.foldl execStmt env

/-- The notebook's boolean-masking cells over `fire_df`, in source
order: the two rain filters, then the two month filters. -/
def maskingProg : List Assign :=
  [ ⟨"no_rain", .filterRainEq0 (.varE "fire_df")⟩
  , ⟨"some_rain", .filterRainPos (.varE "fire_df")⟩
  , ⟨"summer_months", .filterMonthIn (.varE "fire_df") ["jun", "jul", "aug"]⟩
  , ⟨"winter_months", .filterMonthIn (.varE "fire_df") ["dec", "jan", "feb"]⟩ ]

/-! ### Session lifecycle -/

/-- The session-level events of the notebook: creating the SparkSession,
a DataFrame-related library call, stopping the session. -/
inductive SessionEv where
  | create
  | dfCall (name : String)
  | stop
deriving DecidableEq, Repr

/-- Whether an event is a DataFrame library call. -/
def isDfCall : SessionEv → Bool
  | .dfCall _ => true
  | _ => false

/-- The DataFrame library calls of the notebook's code cells, in source
order, from `createDataFrame` to the final masking `show`. -/
def sparkCalls : List String :=
  [ "createDataFrame", "printSchema", "collect", "take", "show"
  , "select-show", "select-show", "columns", "describe-show"
  , "read-csv", "csv-show"
  , "groupBy-agg-month", "collect", "orderBy-show"
  , "groupBy-agg-day", "collect", "orderBy-show"
  , "filter-no-rain", "filter-some-rain", "select-mean-show", "select-mean-show"
  , "filter-summer", "filter-winter", "select-mean-show", "select-mean-show"
  , "corr"
  , "getitem-color", "column-show-attempt", "column-contains", "column-show-attempt"
  , "filter-contains", "filter-contains-show" ]

/-- The notebook's session trace: create the session, run every
DataFrame call, stop the session. -/
def notebookTrace : List SessionEv :=
  SessionEv.create :: (sparkCalls.map SessionEv.dfCall) ++ [SessionEv.stop]

end SparkNB

namespace SparkNB

theorem aggStep_keys (acc : List (String × ℚ × Nat)) (k : String) (x : ℚ) :
    (aggStep acc k x).map Prod.fst =
      if k ∈ acc.map Prod.fst then acc.map Prod.fst else acc.map Prod.fst ++ [k] := by
  induction acc with
  | nil => simp [aggStep]
  | cons e rest ih =>
    by_cases h : e.1 = k
    · simp [aggStep, h]
    · by_cases hk : k ∈ rest.map Prod.fst <;>
        simp [aggStep, h, ih, hk, List.mem_cons, Ne.symm h]

theorem accFind_aggStep (acc : List (String × ℚ × Nat)) (k : String) (x : ℚ) (q : String) :
    accFind (aggStep acc k x) q =
      if q = k then
        match accFind acc k with
        | some sc => some (sc.1 + x, sc.2 + 1)
        | none => some (x, 1)
      else accFind acc q := by
  induction acc with
  | nil =>
    by_cases h : q = k
    · simp [aggStep, accFind, h]
    · have h2 : ¬ k = q := fun hh => h hh.symm
      simp [aggStep, accFind, h, h2]
  | cons e rest ih =>
    by_cases h : e.1 = k
    · by_cases hq : q = k
      · simp [aggStep, accFind, h, hq]
      · have h2 : ¬ k = q := fun hh => hq hh.symm
        have h3 : ¬ e.1 = q := by rw [h]; exact h2
        simp [aggStep, accFind, h, hq, h2, h3]
    · by_cases hq : e.1 = q
      · have h1 : ¬ q = k := by rw [← hq]; exact h
        simp [aggStep, accFind, h, hq, h1]
      · simp [aggStep, accFind, h, hq, ih]

theorem accFind_isSome_iff (acc : List (String × ℚ × Nat)) (k : String) :
    (accFind acc k).isSome = true ↔ k ∈ acc.map Prod.fst := by
  induction acc with
  | nil => simp [accFind]
  | cons e rest ih =>
    by_cases h : e.1 = k
    · simp [accFind, h]
    · simp [accFind, h, ih, List.mem_cons, Ne.symm h]

theorem accFind_of_mem (acc : List (String × ℚ × Nat)) (e : String × ℚ × Nat)
    (hnd : (acc.map Prod.fst).Nodup) (he : e ∈ acc) : accFind acc e.1 = some e.2 := by
  induction acc with
  | nil => simp at he
  | cons a rest ih =>
    rcases List.mem_cons.mp he with h | h
    · subst h; simp [accFind]
    · have hnd2 := hnd
      rw [List.map_cons, List.nodup_cons] at hnd2
      obtain ⟨ha, hrest⟩ := hnd2
      have hne : ¬ a.1 = e.1 := fun hh => ha (by rw [hh]; exact List.mem_map_of_mem Prod.fst h)
      simp [accFind, hne, ih hrest h]

theorem groupSum_append_singleton (key : α → String) (v : α → ℚ) (l : List α) (r : α) (k : String) :
    groupSum key v (l ++ [r]) k = groupSum key v l k + if key r = k then v r else 0 := by
  by_cases h : key r = k <;> simp [groupSum, List.filter_append, h]

theorem groupCount_append_singleton (key : α → String) (l : List α) (r : α) (k : String) :
    groupCount key (l ++ [r]) k = groupCount key l k + if key r = k then 1 else 0 := by
  by_cases h : key r = k <;> simp [groupCount, List.filter_append, h]

theorem filter_key_eq_nil (key : α → String) (processed : List α) (k : String)
    (hm : k ∉ processed.map key) :
    processed.filter (fun a => decide (key a = k)) = [] := by
  rw [List.filter_eq_nil_iff]
  intro a ha
  simp only [decide_eq_true_eq]
  exact fun hh => hm (hh ▸ List.mem_map_of_mem key ha)

theorem accInv_step (key : α → String) (v : α → ℚ) (processed : List α)
    (acc : List (String × ℚ × Nat)) (r : α) (h : AccInv key v processed acc) :
    AccInv key v (processed ++ [r]) (aggStep acc (key r) (v r)) := by
  obtain ⟨hnd, hfind⟩ := h
  constructor
  · rw [aggStep_keys]
    by_cases hk : key r ∈ acc.map Prod.fst
    · simpa [hk] using hnd
    · simp [hk, List.nodup_append, hnd]
  · intro k
    rw [accFind_aggStep, hfind, hfind]
    by_cases hqk : k = key r
    · subst hqk
      by_cases hm : key r ∈ processed.map key
      · simp [hm, groupSum_append_singleton, groupCount_append_singleton]
      · have hz := filter_key_eq_nil key processed (key r) hm
        simp [hm, groupSum_append_singleton, groupCount_append_singleton,
          groupSum, groupCount, hz]
    · have h2 : ¬ key r = k := fun hh => hqk hh.symm
      by_cases hm : k ∈ processed.map key
      · simp [hqk, hm, h2, groupSum_append_singleton, groupCount_append_singleton]
      · simp [hqk, hm, h2]

theorem accInv_foldl (key : α → String) (v : α → ℚ) (rows : List α) :
    ∀ (processed : List α) (acc : List (String × ℚ × Nat)),
      AccInv key v processed acc →
      AccInv key v (processed ++ rows)
        (rows.foldl (fun a r => aggStep a (key r) (v r)) acc) := by
  induction rows with
  | nil => intro processed acc h; simpa using h
  | cons r rs ih =>
    intro processed acc h
    have h2 := accInv_step key v processed acc r h
    have h3 := ih (processed ++ [r]) _ h2
    simpa [List.append_assoc] using h3

theorem hashAgg_inv (key : α → String) (v : α → ℚ) (rows : List α) :
    AccInv key v rows (hashAgg key v rows) := by
  have h0 : AccInv key v ([] : List α) [] :=
    ⟨by simp, fun k => by simp [accFind]⟩
  simpa using accInv_foldl key v rows [] [] h0

theorem groupByMean_keys_eq (key : α → String) (v : α → ℚ) (rows : List α) :
    (groupByMean key v rows).map Prod.fst = (hashAgg key v rows).map Prod.fst := by
  simp [groupByMean]

theorem groupByMean_nodup (key : α → String) (v : α → ℚ) (rows : List α) :
    ((groupByMean key v rows).map Prod.fst).Nodup := by
  rw [groupByMean_keys_eq]
  exact (hashAgg_inv key v rows).1

theorem groupByMean_mem_keys (key : α → String) (v : α → ℚ) (rows : List α) (k : String) :
    k ∈ (groupByMean key v rows).map Prod.fst ↔ k ∈ rows.map key := by
  rw [groupByMean_keys_eq, ← accFind_isSome_iff, (hashAgg_inv key v rows).2 k]
  by_cases hm : k ∈ rows.map key <;> simp [hm]

theorem groupByMean_mean (key : α → String) (v : α → ℚ) (rows : List α)
    (p : String × ℚ) (hp : p ∈ groupByMean key v rows) :
    p.2 = groupSum key v rows p.1 / (groupCount key rows p.1 : ℚ) := by
  obtain ⟨e, he, hpe⟩ := List.mem_map.mp hp
  obtain ⟨hnd, hfind⟩ := hashAgg_inv key v rows
  have h1 : accFind (hashAgg key v rows) e.1 = some e.2 := accFind_of_mem _ e hnd he
  rw [hfind e.1] at h1
  by_cases hm : e.1 ∈ rows.map key
  · rw [if_pos hm] at h1
    have h2 := Option.some.inj h1
    rw [← hpe]
    simp [← h2]
  · rw [if_neg hm] at h1
    cases h1

theorem takeRows_eq_take (n : Nat) (l : List SRow) : takeRows n l = l.take n := by
  induction n generalizing l with
  | zero => simp [takeRows]
  | succ m ih =>
    cases l with
    | nil => simp [takeRows]
    | cons a t => simp [takeRows, ih]

theorem orderByAvgArea_perm (l : List (String × ℚ)) : (orderByAvgArea l).Perm l :=
  List.perm_insertionSort _ l

theorem orderByAvgArea_sorted (l : List (String × ℚ)) :
    (orderByAvgArea l).Sorted (fun a b => a.2 ≤ b.2) := by
  haveI : IsTotal (String × ℚ) (fun a b => a.2 ≤ b.2) := ⟨fun a b => le_total a.2 b.2⟩
  haveI : IsTrans (String × ℚ) (fun a b => a.2 ≤ b.2) := ⟨fun a b c h1 h2 => le_trans h1 h2⟩
  exact List.sorted_insertionSort _ l

end SparkNB

/-- C1: for every grouping of the fire dataset by a categorical key
column with a mean aggregation of the numeric `area` column
(`groupBy('month')` and `groupBy('day')`), the materialized result
contains exactly one row per distinct value of the key column present in
the input (its key list has no duplicates and holds exactly the keys
occurring in the input), and each row's aggregate equals the arithmetic
mean — sum divided by count — of `area` over the rows of its group. -/
theorem SparkNB.groupBy_mean_one_row_per_distinct_key (rows : List SparkNB.FireRow) :
    ((((SparkNB.groupMonthsAvgArea rows).map Prod.fst).Nodup ∧
      (∀ k, k ∈ (SparkNB.groupMonthsAvgArea rows).map Prod.fst ↔
        k ∈ rows.map (fun r => r.month)) ∧
      (∀ p ∈ SparkNB.groupMonthsAvgArea rows,
        p.2 = SparkNB.groupSum (fun r => r.month) (fun r => r.area) rows p.1 /
          (SparkNB.groupCount (fun r => r.month) rows p.1 : ℚ)))) ∧
    ((((SparkNB.groupDayAvgArea rows).map Prod.fst).Nodup ∧
      (∀ k, k ∈ (SparkNB.groupDayAvgArea rows).map Prod.fst ↔
        k ∈ rows.map (fun r => r.day)) ∧
      (∀ p ∈ SparkNB.groupDayAvgArea rows,
        p.2 = SparkNB.groupSum (fun r => r.day) (fun r => r.area) rows p.1 /
          (SparkNB.groupCount (fun r => r.day) rows p.1 : ℚ)))) := by
  refine ⟨⟨?_, ?_, ?_⟩, ?_, ?_, ?_⟩
  · exact SparkNB.groupByMean_nodup _ _ rows
  · exact fun k => SparkNB.groupByMean_mem_keys _ _ rows k
  · exact fun p hp => SparkNB.groupByMean_mean _ _ rows p hp
  · exact SparkNB.groupByMean_nodup _ _ rows
  · exact fun k => SparkNB.groupByMean_mem_keys _ _ rows k
  · exact fun p hp => SparkNB.groupByMean_mean _ _ rows p hp

/-- C1 witness: on the five recorded rows of the fire dataset, the
month-aggregate row for October is present and its value equals the
arithmetic mean of `area` over the October rows. -/
theorem SparkNB.groupBy_mean_one_row_per_distinct_key_witness :
    (("oct", (0 : ℚ)) ∈ SparkNB.groupMonthsAvgArea SparkNB.fireHead) ∧
    ("oct", (0 : ℚ)).2 =
      SparkNB.groupSum (fun r => r.month) (fun r => r.area) SparkNB.fireHead "oct" /
        (SparkNB.groupCount (fun r => r.month) SparkNB.fireHead "oct" : ℚ) := by
  have hm : ("oct", (0 : ℚ)) ∈ SparkNB.groupMonthsAvgArea SparkNB.fireHead := by
    have he : SparkNB.groupMonthsAvgArea SparkNB.fireHead = [("mar", 0), ("oct", 0)] := by
      simp +decide [SparkNB.groupMonthsAvgArea, SparkNB.groupByMean, SparkNB.hashAgg,
        SparkNB.fireHead, SparkNB.aggStep]
    rw [he]; simp
  exact ⟨hm, (SparkNB.groupBy_mean_one_row_per_distinct_key SparkNB.fireHead).1.2.2
    ("oct", (0 : ℚ)) hm⟩

/-- C2: calling `show()` on an intermediate Column expression
(`spark_df['color']` and `spark_df['color'].contains('r')`) raises a
TypeError; in both demonstration blocks the error is caught and printed
(type then message), and execution continues past them: the subsequent
`filter`-based masking still evaluates to the recorded red and green
rows. -/
theorem SparkNB.column_show_typeerror_caught :
    SparkNB.showColumn (.col "color") =
      .error ⟨"TypeError", "\x27Column\x27 object is not callable"⟩ ∧
    SparkNB.showColumn (.containsOf (.col "color") "r") =
      .error ⟨"TypeError", "\x27Column\x27 object is not callable"⟩ ∧
    SparkNB.errorDemoSection.1 =
      ["TypeError", "\x27Column\x27 object is not callable",
       "TypeError", "\x27Column\x27 object is not callable"] ∧
    SparkNB.errorDemoSection.2 =
      [⟨"red", 1, 4, true⟩, ⟨"green", 3, 1, true⟩] :=
  ⟨rfl, rfl, rfl, by decide⟩

/-- C3: schema inference on the three literal rows yields string for
`color`, long (a 64-bit integer type) for `count` and `number`, and
boolean for `valid`, with the columns in Spark's sorted order. -/
theorem SparkNB.createDataFrame_inferred_schema :
    SparkNB.inferSchema SparkNB.sparkLiteralRows =
      [("color", .stringT), ("count", .longT), ("number", .longT), ("valid", .booleanT)] := by
  simp +decide [SparkNB.inferSchema, SparkNB.sparkLiteralRows,
    List.insertionSort, List.orderedInsert]

/-- C4 counterexample: the fire dataset does not have twelve named
columns — its recorded header has thirteen. -/
theorem SparkNB.fire_columns_not_twelve : ¬ (SparkNB.fireColumns.length = 12) := by decide

/-- C4 amended: the dataset loaded by the single CSV load call has
exactly thirteen named columns — the two spatial coordinates, month,
day, the four fire-weather indices, temperature, humidity, wind, rain
and burned area — taken from the file's header row, with no duplicates. -/
theorem SparkNB.fire_columns_thirteen :
    SparkNB.fireColumns =
      SparkNB.spatialColumns ++ ["month", "day"] ++ SparkNB.fireWeatherIndices ++
        ["temp", "RH", "wind", "rain", "area"] ∧
    SparkNB.fireColumns.length = 13 ∧
    SparkNB.spatialColumns.length = 2 ∧
    SparkNB.fireWeatherIndices.length = 4 ∧
    SparkNB.fireColumns.Nodup := by decide

/-- C5: the `groupBy(...).agg(...)` call does not compute the grouped
rows: it returns exactly the unevaluated plan node holding the untouched
input, whose observable display carries only the result schema (it is
independent of the rows); the per-group summary rows are produced by the
explicit `collect` materialization of that value. -/
theorem SparkNB.groupBy_agg_lazy (rows : List SparkNB.FireRow) :
    SparkNB.groupByAggMean rows "month" = SparkNB.AggPlan.groupAvgArea "month" rows ∧
    SparkNB.aggSchema (SparkNB.groupByAggMean rows "month") =
      [("month", .stringT), ("avg(area)", .doubleT)] ∧
    SparkNB.reprAgg (SparkNB.groupByAggMean rows "month") =
      "DataFrame[month: string, avg(area): double]" ∧
    SparkNB.reprAgg (SparkNB.groupByAggMean rows "month") =
      SparkNB.reprAgg (SparkNB.groupByAggMean [] "month") ∧
    SparkNB.collectAgg (SparkNB.groupByAggMean rows "month") =
      SparkNB.groupByMean (SparkNB.stringCol "month") (fun r => r.area) rows ∧
    SparkNB.groupByAggMean rows "day" = SparkNB.AggPlan.groupAvgArea "day" rows ∧
    SparkNB.aggSchema (SparkNB.groupByAggMean rows "day") =
      [("day", .stringT), ("avg(area)", .doubleT)] ∧
    SparkNB.collectAgg (SparkNB.groupByAggMean rows "day") =
      SparkNB.groupByMean (SparkNB.stringCol "day") (fun r => r.area) rows :=
  ⟨rfl, rfl, rfl, rfl, rfl, rfl, rfl, rfl⟩

/-- C6: the DataFrames are immutable inputs: running the notebook's
masking assignments leaves the `fire_df` binding with all of its rows,
each filter result is computed from the full original row list (so the
later month-based filters still see every row), and in general executing
an assignment changes no binding other than its own left-hand side. -/
theorem SparkNB.dataframes_immutable_under_filters (rows : List SparkNB.FireRow)
    (env : SparkNB.Env) (s : SparkNB.Assign) (x : String) :
    SparkNB.lookupEnv (SparkNB.runProg [("fire_df", rows)] SparkNB.maskingProg) "fire_df" = rows ∧
    SparkNB.lookupEnv (SparkNB.runProg [("fire_df", rows)] SparkNB.maskingProg) "no_rain" =
      rows.filter (fun r => decide (r.rain = 0)) ∧
    SparkNB.lookupEnv (SparkNB.runProg [("fire_df", rows)] SparkNB.maskingProg) "some_rain" =
      rows.filter (fun r => decide (0 < r.rain)) ∧
    SparkNB.lookupEnv (SparkNB.runProg [("fire_df", rows)] SparkNB.maskingProg) "summer_months" =
      rows.filter (fun r => (["jun", "jul", "aug"] : List String).contains r.month) ∧
    SparkNB.lookupEnv (SparkNB.runProg [("fire_df", rows)] SparkNB.maskingProg) "winter_months" =
      rows.filter (fun r => (["dec", "jan", "feb"] : List String).contains r.month) ∧
    SparkNB.lookupEnv (SparkNB.execStmt env s) x =
      (if s.lhs = x then SparkNB.evalF env s.rhs else SparkNB.lookupEnv env x) := by
  refine ⟨?_, ?_, ?_, ?_, ?_, ?_⟩
  · simp +decide [SparkNB.runProg, SparkNB.maskingProg, SparkNB.execStmt,
      SparkNB.evalF, SparkNB.lookupEnv, List.find?]
  · simp +decide [SparkNB.runProg, SparkNB.maskingProg, SparkNB.execStmt,
      SparkNB.evalF, SparkNB.lookupEnv, List.find?]
  · simp +decide [SparkNB.runProg, SparkNB.maskingProg, SparkNB.execStmt,
      SparkNB.evalF, SparkNB.lookupEnv, List.find?]
  · simp +decide [SparkNB.runProg, SparkNB.maskingProg, SparkNB.execStmt,
      SparkNB.evalF, SparkNB.lookupEnv, List.find?]
  · simp +decide [SparkNB.runProg, SparkNB.maskingProg, SparkNB.execStmt,
      SparkNB.evalF, SparkNB.lookupEnv, List.find?]
  · by_cases h : s.lhs = x <;>
      simp [SparkNB.execStmt, SparkNB.lookupEnv, List.find?, h]

/-- C7: the session lifecycle is create-then-stop: the notebook's trace
starts with the single session creation, ends with the single stop, and
everything strictly between is a DataFrame library call, so every such
call happens between the create and the stop and nothing follows the
stop. -/
theorem SparkNB.session_create_then_stop :
    SparkNB.notebookTrace.head? = some SparkNB.SessionEv.create ∧
    SparkNB.notebookTrace.getLast? = some SparkNB.SessionEv.stop ∧
    SparkNB.notebookTrace.count SparkNB.SessionEv.create = 1 ∧
    SparkNB.notebookTrace.count SparkNB.SessionEv.stop = 1 ∧
    SparkNB.notebookTrace =
      SparkNB.SessionEv.create ::
        (SparkNB.sparkCalls.map SparkNB.SessionEv.dfCall) ++ [SparkNB.SessionEv.stop] ∧
    (SparkNB.sparkCalls.map SparkNB.SessionEv.dfCall).all SparkNB.isDfCall = true :=
  ⟨rfl, by decide, by decide, by decide, rfl, by decide⟩

/-- C8: `spark_df.corr('number', 'count')`, the Pearson correlation of
the columns number = [4, 7, 1] and count = [1, 2, 3], equals exactly
-1/2. -/
theorem SparkNB.corr_number_count_eq_neg_half :
    SparkNB.sparkDfCorrNumberCount = -(1 / 2) := by
  rw [SparkNB.sparkDfCorrNumberCount]
  simp [SparkNB.pearsonCorr, SparkNB.spark_df]
  norm_num

/-- C9: on both grouped-aggregate datasets of the program,
`orderBy('avg(area)')` returns a permutation of its input that is sorted
in non-decreasing order of the average column; in particular the
multiset of (key, average) pairs is unchanged. -/
theorem SparkNB.orderBy_avg_area_sorted_perm (rows : List SparkNB.FireRow) :
    ((SparkNB.orderByAvgArea (SparkNB.groupMonthsAvgArea rows)).Perm
        (SparkNB.groupMonthsAvgArea rows) ∧
      (SparkNB.orderByAvgArea (SparkNB.groupMonthsAvgArea rows)).Sorted
        (fun a b => a.2 ≤ b.2) ∧
      (↑(SparkNB.orderByAvgArea (SparkNB.groupMonthsAvgArea rows)) :
          Multiset (String × ℚ)) = ↑(SparkNB.groupMonthsAvgArea rows)) ∧
    ((SparkNB.orderByAvgArea (SparkNB.groupDayAvgArea rows)).Perm
        (SparkNB.groupDayAvgArea rows) ∧
      (SparkNB.orderByAvgArea (SparkNB.groupDayAvgArea rows)).Sorted
        (fun a b => a.2 ≤ b.2) ∧
      (↑(SparkNB.orderByAvgArea (SparkNB.groupDayAvgArea rows)) :
          Multiset (String × ℚ)) = ↑(SparkNB.groupDayAvgArea rows)) := by
  refine ⟨⟨SparkNB.orderByAvgArea_perm _, SparkNB.orderByAvgArea_sorted _, ?_⟩,
    SparkNB.orderByAvgArea_perm _, SparkNB.orderByAvgArea_sorted _, ?_⟩
  · exact Multiset.coe_eq_coe.mpr (SparkNB.orderByAvgArea_perm _)
  · exact Multiset.coe_eq_coe.mpr (SparkNB.orderByAvgArea_perm _)

/-- C10: for every n not exceeding the number of rows, `take(n)` on the
literal DataFrame returns exactly the first n rows of `collect()`, in
the same order: it equals the length-n prefix and concatenating the
remaining rows restores the collected list. -/
theorem SparkNB.take_prefix_of_collect (n : Nat) (rows : List SparkNB.SRow)
    (h : n ≤ (SparkNB.collectRows rows).length) :
    SparkNB.takeRows n (SparkNB.collectRows rows) = (SparkNB.collectRows rows).take n ∧
    (SparkNB.takeRows n (SparkNB.collectRows rows)).length = n ∧
    SparkNB.takeRows n (SparkNB.collectRows rows) ++ (SparkNB.collectRows rows).drop n =
      SparkNB.collectRows rows := by
  refine ⟨SparkNB.takeRows_eq_take n _, ?_, ?_⟩
  · rw [SparkNB.takeRows_eq_take]
    exact List.length_take_of_le h
  · rw [SparkNB.takeRows_eq_take]
    exact List.take_append_drop n _

/-- C10 witness: `spark_df.take(2)` is the length-2 prefix of
`spark_df.collect()`: the red and blue rows. -/
theorem SparkNB.take_prefix_of_collect_witness :
    2 ≤ (SparkNB.collectRows SparkNB.spark_df).length ∧
    SparkNB.takeRows 2 (SparkNB.collectRows SparkNB.spark_df) =
      [⟨"red", 1, 4, true⟩, ⟨"blue", 2, 7, false⟩] ∧
    SparkNB.takeRows 2 (SparkNB.collectRows SparkNB.spark_df) =
      (SparkNB.collectRows SparkNB.spark_df).take 2 :=
  ⟨by decide, by decide,
    (SparkNB.take_prefix_of_collect 2 SparkNB.spark_df (by decide)).1⟩
